import Mathlib

/-!
Shallow embedding of the spoonjoy order-management backend (src/app.py).

The `orders` table is a flat ledger of line items; a logical transaction is
the set of rows sharing a `(total_price, timestamp)` key.  Checkout
(`place_order_auto`) flattens the cart into ledger rows; `admin_assign`,
`admin_update_status` and `delivery_update_status` mutate status /
delivery_partner on all rows matching the key of a referenced row; the
profile and admin dashboards list one summary row per distinct
`(total_price, timestamp, delivery_partner, status)` combination.

SQL REAL prices are modelled as rationals; timestamps as strings; row ids as
naturals handed out by a monotone counter (SQLite AUTOINCREMENT).
-/

/-- Row of the `dishes` table. -/
structure Dish where
  id : Nat
  name : String
  description : String
  price : Rat
  image : String
deriving DecidableEq

/-- Row of the `cart` table. -/
structure CartEntry where
  id : Nat
  user_id : Nat
  dish_id : Nat
  quantity : Nat
deriving DecidableEq

/-- Row of the `orders` table (one line item of a transaction). -/
structure LineItem where
  id : Nat
  user_id : Nat
  dish_id : Nat
  dish_name : String
  quantity : Nat
  total : Rat
  status : String
  delivery_partner : Option String
  total_price : Rat
  timestamp : String
deriving DecidableEq

/-- The database state: dishes, cart, orders, and the AUTOINCREMENT counter
for the `orders` table. -/
structure DB where
  dishes : List Dish
  cart : List CartEntry
  orders : List LineItem
  nextOrderId : Nat
deriving DecidableEq

/-- The `role` column of the `users` table (seeded roles). -/
inductive Role
  | customer
  | admin
  | delivery
deriving DecidableEq

/-- The Flask session: absent keys are `none` (a guest has no session keys). -/
structure Session where
  user_id : Option Nat
  username : Option String
  role : Option Role
deriving DecidableEq

/-- Embeds `has_role`: `session.get('role') == required_role`. -/
def has_role (s : Session) (r : Role) : Bool :=
  decide (s.role = some r)

/-- Embeds `is_staff`: `has_role('admin') or has_role('delivery')`. -/
def is_staff (s : Session) : Bool :=
  has_role s .admin || has_role s .delivery

/-- Result of the `/menu` route: either redirected away or the dish list. -/
inductive MenuResult
  | denied
  | dishes (ds : List Dish)
deriving DecidableEq

/-- Embeds the `/menu` route: staff are redirected away, everyone else
(customers and guests alike) is served the catalog. -/
def menu (db : DB) (s : Session) : MenuResult :=
  if is_staff s then .denied else .dishes db.dishes

/-- Embeds `SELECT price, name FROM dishes WHERE id=?` (first match). -/
def findDish (db : DB) (dishId : Nat) : Option Dish :=
  db.dishes.find? (fun d => decide (d.id = dishId))

/-- Embeds `SELECT dish_id, quantity FROM cart WHERE user_id=?`. -/
def userCart (db : DB) (uid : Nat) : List CartEntry :=
  db.cart.filter (fun e => decide (e.user_id = uid))

/-- One element of the `dish_items` list built inside `place_order_auto`. -/
structure DishItem where
  dish_id : Nat
  dish_name : String
  quantity : Nat
  total : Rat
deriving DecidableEq

/-- Embeds the per-cart-entry dish lookup of `place_order_auto`: a cart entry
whose dish is missing yields `none` and is skipped. -/
def resolveEntry (db : DB) (e : CartEntry) : Option DishItem :=
  (findDish db e.dish_id).map (fun d =>
    { dish_id := e.dish_id, dish_name := d.name, quantity := e.quantity,
      total := d.price * (e.quantity : Rat) })

/-- Embeds the insertion loop of `place_order_auto`: one `orders` row per
resolved dish item, with consecutive AUTOINCREMENT ids starting at `nid`;
`status` and `delivery_partner` take their column defaults. -/
def mkRows (uid : Nat) (now : String) (grand : Rat) : Nat → List DishItem → List LineItem
  | _, [] => []
  | nid, it :: rest =>
    { id := nid, user_id := uid, dish_id := it.dish_id, dish_name := it.dish_name,
      quantity := it.quantity, total := it.total, status := "placed",
      delivery_partner := none, total_price := grand, timestamp := now }
      :: mkRows uid now grand (nid + 1) rest

/-- Outcome of `place_order_auto`: the empty-cart redirect, or the redirect to
`payment_success` carrying `first_order_id` (which is `None` when no row was
inserted). -/
inductive CheckoutResult
  | emptyCart
  | placed (firstOrderId : Option Nat)
deriving DecidableEq

/-- Embeds the `/place_order_auto` route for a logged-in customer `uid` at
clock time `now`. -/
def place_order_auto (db : DB) (uid : Nat) (now : String) : DB × CheckoutResult :=
  let cart_items := userCart db uid
  if cart_items = [] then (db, .emptyCart)
  else
    let dish_items := cart_items.filterMap (resolveEntry db)
    let grand_total := (dish_items.map DishItem.total).sum
    let newRows := mkRows uid now grand_total db.nextOrderId dish_items
    ({ db with
        orders := db.orders ++ newRows,
        cart := db.cart.filter (fun e => decide (e.user_id ≠ uid)),
        nextOrderId := db.nextOrderId + newRows.length },
     .placed (if dish_items = [] then none else some db.nextOrderId))

/-- Outcome of the assign / update-status routes: success flash or the
"Order not found" / "not assigned to you" flash. -/
inductive UpdateResult
  | ok
  | notFound
deriving DecidableEq

/-- Embeds `/admin/assign/<order_id>`: resolve `(total_price, timestamp)` from
the referenced row, then set `delivery_partner` and `status = 'preparing'` on
every row matching that key. -/
def admin_assign (db : DB) (orderId : Nat) (deliveryUser : String) : DB × UpdateResult :=
  match db.orders.find? (fun o => decide (o.id = orderId)) with
  | some r =>
    ({ db with orders := db.orders.map (fun o =>
        if o.total_price = r.total_price ∧ o.timestamp = r.timestamp then
          { o with delivery_partner := some deliveryUser, status := "preparing" }
        else o) }, .ok)
  | none => (db, .notFound)

/-- Embeds `/admin/update_status/<order_id>`: resolve the key from the
referenced row, then set `status` on every row matching that key. -/
def admin_update_status (db : DB) (orderId : Nat) (newStatus : String) : DB × UpdateResult :=
  match db.orders.find? (fun o => decide (o.id = orderId)) with
  | some r =>
    ({ db with orders := db.orders.map (fun o =>
        if o.total_price = r.total_price ∧ o.timestamp = r.timestamp then
          { o with status := newStatus }
        else o) }, .ok)
  | none => (db, .notFound)

/-- Embeds `/delivery/update_status/<order_id>` for delivery actor
`deliveryUser`: the reference lookup additionally requires
`delivery_partner = deliveryUser`, and the update is scoped by the key and
`delivery_partner = deliveryUser`. -/
def delivery_update_status (db : DB) (orderId : Nat) (newStatus : String)
    (deliveryUser : String) : DB × UpdateResult :=
  match db.orders.find? (fun o =>
      decide (o.id = orderId ∧ o.delivery_partner = some deliveryUser)) with
  | some r =>
    ({ db with orders := db.orders.map (fun o =>
        if o.total_price = r.total_price ∧ o.timestamp = r.timestamp ∧
            o.delivery_partner = some deliveryUser then
          { o with status := newStatus }
        else o) }, .ok)
  | none => (db, .notFound)

/-- The `GROUP BY total_price, timestamp, delivery_partner, status` key used
by the profile and admin dashboards. -/
structure SummaryKey where
  total_price : Rat
  timestamp : String
  delivery_partner : Option String
  status : String
deriving DecidableEq

/-- The summary-grouping key of a ledger row. -/
def summaryKey (o : LineItem) : SummaryKey :=
  { total_price := o.total_price, timestamp := o.timestamp,
    delivery_partner := o.delivery_partner, status := o.status }

/-- The distinct summary keys occurring in a list of ledger rows. -/
def distinctKeys : List LineItem → List SummaryKey
  | [] => []
  | o :: rest =>
    if summaryKey o ∈ distinctKeys rest then distinctKeys rest
    else summaryKey o :: distinctKeys rest

/-- Embeds the `GROUP BY` queries of `/profile` and `/admin`: one output row
per distinct key, carrying the id of a representative member row. -/
def listTransactionSummaries (rows : List LineItem) : List (Nat × SummaryKey) :=
  (distinctKeys rows).filterMap (fun k =>
    (rows.find? (fun o => decide (summaryKey o = k))).map (fun o => (o.id, k)))

/-- Embeds the `/profile` order listing: summaries scoped to one user. -/
def profile_summaries (db : DB) (uid : Nat) : List (Nat × SummaryKey) :=
  listTransactionSummaries (db.orders.filter (fun o => decide (o.user_id = uid)))

/-- Embeds the `/admin` order listing: summaries over the whole ledger. -/
def admin_summaries (db : DB) : List (Nat × SummaryKey) :=
  listTransactionSummaries db.orders

/-- The group invariant: rows sharing the `(total_price, timestamp)`
transaction key agree on `status` and `delivery_partner`. -/
def groupUniform (rows : List LineItem) : Prop :=
  ∀ a ∈ rows, ∀ b ∈ rows,
    a.total_price = b.total_price → a.timestamp = b.timestamp →
      a.status = b.status ∧ a.delivery_partner = b.delivery_partner

instance groupUniformDecidable (rows : List LineItem) : Decidable (groupUniform rows) := by
  unfold groupUniform
  infer_instance

/-! Concrete example databases used by witnesses and counterexamples. -/

/-- Ledger row: user 1, transaction key (25, "2026-01-01 10:00:00"). -/
def wRow1 : LineItem :=
  { id := 1, user_id := 1, dish_id := 1, dish_name := "pizza", quantity := 1,
    total := 25, status := "placed", delivery_partner := none,
    total_price := 25, timestamp := "2026-01-01 10:00:00" }

/-- Ledger row: user 2, with the same (total_price, timestamp) key as `wRow1`. -/
def wRow2 : LineItem :=
  { id := 2, user_id := 2, dish_id := 2, dish_name := "cake", quantity := 1,
    total := 25, status := "placed", delivery_partner := none,
    total_price := 25, timestamp := "2026-01-01 10:00:00" }

/-- Ledger row: user 1, a different transaction key, already out for delivery. -/
def wRow3 : LineItem :=
  { id := 3, user_id := 1, dish_id := 3, dish_name := "soup", quantity := 2,
    total := 8, status := "out", delivery_partner := some "dave",
    total_price := 8, timestamp := "2026-01-02 09:30:00" }

/-- Database holding two different users' transactions whose
(total_price, timestamp) keys collide. -/
def collideDB : DB :=
  { dishes := [], cart := [], orders := [wRow1, wRow2], nextOrderId := 3 }

/-- Database whose user 1 has an empty cart and one ledger row. -/
def emptyCartDB : DB :=
  { dishes := [], cart := [], orders := [wRow1], nextOrderId := 2 }

/-! Characterization lemmas: each mutation route, rewritten by the outcome of
its reference lookup. -/

/-- Unfolding of `admin_assign` when the reference lookup succeeds. -/
lemma admin_assign_eq_of_find (db : DB) (oid : Nat) (p : String) (r : LineItem)
    (h : db.orders.find? (fun o => decide (o.id = oid)) = some r) :
    admin_assign db oid p =
      ({ db with orders := db.orders.map (fun o =>
          if o.total_price = r.total_price ∧ o.timestamp = r.timestamp then
            { o with delivery_partner := some p, status := "preparing" }
          else o) }, .ok) := by
  unfold admin_assign
  rw [h]

/-- Unfolding of `admin_assign` when the reference lookup fails. -/
lemma admin_assign_eq_of_find_none (db : DB) (oid : Nat) (p : String)
    (h : db.orders.find? (fun o => decide (o.id = oid)) = none) :
    admin_assign db oid p = (db, .notFound) := by
  unfold admin_assign
  rw [h]

/-- Unfolding of `admin_update_status` when the reference lookup succeeds. -/
lemma admin_update_status_eq_of_find (db : DB) (oid : Nat) (ns : String) (r : LineItem)
    (h : db.orders.find? (fun o => decide (o.id = oid)) = some r) :
    admin_update_status db oid ns =
      ({ db with orders := db.orders.map (fun o =>
          if o.total_price = r.total_price ∧ o.timestamp = r.timestamp then
            { o with status := ns }
          else o) }, .ok) := by
  unfold admin_update_status
  rw [h]

/-- Unfolding of `admin_update_status` when the reference lookup fails. -/
lemma admin_update_status_eq_of_find_none (db : DB) (oid : Nat) (ns : String)
    (h : db.orders.find? (fun o => decide (o.id = oid)) = none) :
    admin_update_status db oid ns = (db, .notFound) := by
  unfold admin_update_status
  rw [h]

/-- Unfolding of `delivery_update_status` when the scoped lookup succeeds. -/
lemma delivery_update_status_eq_of_find (db : DB) (oid : Nat) (ns du : String) (r : LineItem)
    (h : db.orders.find? (fun o =>
        decide (o.id = oid ∧ o.delivery_partner = some du)) = some r) :
    delivery_update_status db oid ns du =
      ({ db with orders := db.orders.map (fun o =>
          if o.total_price = r.total_price ∧ o.timestamp = r.timestamp ∧
              o.delivery_partner = some du then
            { o with status := ns }
          else o) }, .ok) := by
  unfold delivery_update_status
  rw [h]

/-- Unfolding of `delivery_update_status` when the scoped lookup fails. -/
lemma delivery_update_status_eq_of_find_none (db : DB) (oid : Nat) (ns du : String)
    (h : db.orders.find? (fun o =>
        decide (o.id = oid ∧ o.delivery_partner = some du)) = none) :
    delivery_update_status db oid ns du = (db, .notFound) := by
  unfold delivery_update_status
  rw [h]

/-- C6: for a user whose cart has zero entries, checkout fails with
`EmptyCart` and the whole database — in particular the order ledger — is
unchanged: no LineItem and no transaction is created. -/
theorem checkout_empty_cart_rejected (db : DB) (uid : Nat) (now : String)
    (h : userCart db uid = []) :
    place_order_auto db uid now = (db, CheckoutResult.emptyCart) := by
  unfold place_order_auto
  simp [h]

/-- Witness for C6 on a concrete database with an empty cart. -/
theorem checkout_empty_cart_rejected_witness :
    userCart emptyCartDB 1 = [] ∧
      place_order_auto emptyCartDB 1 "2026-01-03 12:00:00"
        = (emptyCartDB, CheckoutResult.emptyCart) :=
  ⟨rfl, checkout_empty_cart_rejected emptyCartDB 1 "2026-01-03 12:00:00" rfl⟩

/-- C7: when the reference id matches no ledger row, admin assign and admin
setStatus both report `notFound` and leave the database unchanged. -/
theorem admin_ops_unknown_ref (db : DB) (oid : Nat) (p s : String)
    (h : ∀ r ∈ db.orders, r.id ≠ oid) :
    admin_assign db oid p = (db, UpdateResult.notFound) ∧
      admin_update_status db oid s = (db, UpdateResult.notFound) := by
  have hf : db.orders.find? (fun o => decide (o.id = oid)) = none := by
    rw [List.find?_eq_none]
    intro x hx
    simpa using h x hx
  exact ⟨admin_assign_eq_of_find_none db oid p hf,
    admin_update_status_eq_of_find_none db oid s hf⟩

/-- Witness for C7 on a concrete database with no row of id 99. -/
theorem admin_ops_unknown_ref_witness :
    (∀ r ∈ emptyCartDB.orders, r.id ≠ 99) ∧
      admin_assign emptyCartDB 99 "dave" = (emptyCartDB, UpdateResult.notFound) ∧
      admin_update_status emptyCartDB 99 "done" = (emptyCartDB, UpdateResult.notFound) :=
  ⟨by decide, (admin_ops_unknown_ref emptyCartDB 99 "dave" "done" (by decide)).1,
    (admin_ops_unknown_ref emptyCartDB 99 "dave" "done" (by decide)).2⟩

/-- C5: when the reference id resolves, admin assign succeeds and afterwards
every ledger row of the referenced transaction (same total_price and
timestamp) has status "preparing" and the given delivery partner, whatever
its status was before. -/
theorem admin_assign_sets_preparing (db : DB) (oid : Nat) (p : String) (r : LineItem)
    (h : db.orders.find? (fun o => decide (o.id = oid)) = some r) :
    (admin_assign db oid p).2 = UpdateResult.ok ∧
      ∀ o ∈ (admin_assign db oid p).1.orders,
        o.total_price = r.total_price → o.timestamp = r.timestamp →
          o.status = "preparing" ∧ o.delivery_partner = some p := by
  rw [admin_assign_eq_of_find db oid p r h]
  refine ⟨rfl, ?_⟩
  intro o ho htp hts
  simp only [List.mem_map] at ho
  obtain ⟨o0, _ho0, rfl⟩ := ho
  by_cases hc : o0.total_price = r.total_price ∧ o0.timestamp = r.timestamp
  · simp [hc]
  · rw [if_neg hc] at htp hts ⊢
    exact absurd ⟨htp, hts⟩ hc

/-- Witness for C5: assigning "bob" on the concrete colliding ledger. -/
theorem admin_assign_sets_preparing_witness :
    collideDB.orders.find? (fun o => decide (o.id = 1)) = some wRow1 ∧
      ((admin_assign collideDB 1 "bob").2 = UpdateResult.ok ∧
        ∀ o ∈ (admin_assign collideDB 1 "bob").1.orders,
          o.total_price = wRow1.total_price → o.timestamp = wRow1.timestamp →
            o.status = "preparing" ∧ o.delivery_partner = some "bob") :=
  ⟨by decide, admin_assign_sets_preparing collideDB 1 "bob" wRow1 (by decide)⟩

/-- C4: a delivery-actor setStatus call succeeds only when some ledger row has
the referenced id with delivery_partner equal to the actor; when no such row
exists (unknown id, or a transaction assigned to someone else), the call
reports the undistinguished not-found/not-assigned outcome and mutates no
LineItem. -/
theorem delivery_update_requires_ownership (db : DB) (oid : Nat) (ns du : String) :
    ((delivery_update_status db oid ns du).2 = UpdateResult.ok →
        ∃ r ∈ db.orders, r.id = oid ∧ r.delivery_partner = some du) ∧
      ((∀ r ∈ db.orders, ¬(r.id = oid ∧ r.delivery_partner = some du)) →
        delivery_update_status db oid ns du = (db, UpdateResult.notFound)) := by
  constructor
  · intro hok
    cases hfind : db.orders.find? (fun o =>
        decide (o.id = oid ∧ o.delivery_partner = some du)) with
    | none =>
      rw [delivery_update_status_eq_of_find_none db oid ns du hfind] at hok
      exact absurd hok (by simp)
    | some r =>
      exact ⟨r, List.mem_of_find?_eq_some hfind, by simpa using List.find?_some hfind⟩
  · intro hno
    have hf : db.orders.find? (fun o =>
        decide (o.id = oid ∧ o.delivery_partner = some du)) = none := by
      rw [List.find?_eq_none]
      intro x hx
      simpa using hno x hx
    exact delivery_update_status_eq_of_find_none db oid ns du hf

/-- Witness for C4: actor "mallory" owns nothing in the concrete ledger, so
her setStatus call on row 1 changes nothing and reports not found. -/
theorem delivery_update_requires_ownership_witness :
    (∀ r ∈ collideDB.orders, ¬(r.id = 1 ∧ r.delivery_partner = some "mallory")) ∧
      delivery_update_status collideDB 1 "delivered" "mallory"
        = (collideDB, UpdateResult.notFound) :=
  ⟨by decide,
    (delivery_update_requires_ownership collideDB 1 "delivered" "mallory").2 (by decide)⟩

/-- Mapping a per-row update over the ledger preserves the group invariant
when the update keeps the transaction key and sends key-and-state-equal rows
to status/partner-equal rows. -/
lemma groupUniform_map (rows : List LineItem) (f : LineItem → LineItem)
    (hkey : ∀ o, (f o).total_price = o.total_price ∧ (f o).timestamp = o.timestamp)
    (hcong : ∀ a b, a.total_price = b.total_price → a.timestamp = b.timestamp →
        a.status = b.status → a.delivery_partner = b.delivery_partner →
        (f a).status = (f b).status ∧ (f a).delivery_partner = (f b).delivery_partner)
    (hU : groupUniform rows) : groupUniform (rows.map f) := by
  intro a ha b hb htp hts
  simp only [List.mem_map] at ha hb
  obtain ⟨a0, ha0, rfl⟩ := ha
  obtain ⟨b0, hb0, rfl⟩ := hb
  rw [(hkey a0).1, (hkey b0).1] at htp
  rw [(hkey a0).2, (hkey b0).2] at hts
  obtain ⟨hs, hd⟩ := hU a0 ha0 b0 hb0 htp hts
  exact hcong a0 b0 htp hts hs hd

/-- C1: if all LineItems sharing a (total_price, timestamp) transaction key
agree on status and delivery_partner, then after an admin assign, an admin
setStatus or a delivery setStatus (successful or not) they still do. -/
theorem group_invariant_preserved (db : DB) (oid : Nat) (p ns du : String)
    (hU : groupUniform db.orders) :
    groupUniform (admin_assign db oid p).1.orders ∧
      groupUniform (admin_update_status db oid ns).1.orders ∧
      groupUniform (delivery_update_status db oid ns du).1.orders := by
  refine ⟨?_, ?_, ?_⟩
  · cases hfind : db.orders.find? (fun o => decide (o.id = oid)) with
    | none =>
      rw [admin_assign_eq_of_find_none db oid p hfind]
      exact hU
    | some r =>
      rw [admin_assign_eq_of_find db oid p r hfind]
      refine groupUniform_map _ _ ?_ ?_ hU
      · intro o
        by_cases hc : o.total_price = r.total_price ∧ o.timestamp = r.timestamp <;>
          simp [hc]
      · intro a b htp hts hs hd
        by_cases hc : a.total_price = r.total_price ∧ a.timestamp = r.timestamp
        · have hc' : b.total_price = r.total_price ∧ b.timestamp = r.timestamp :=
            ⟨htp ▸ hc.1, hts ▸ hc.2⟩
          simp [if_pos hc, if_pos hc']
        · have hc' : ¬(b.total_price = r.total_price ∧ b.timestamp = r.timestamp) := by
            intro hb'
            exact hc ⟨htp.trans hb'.1, hts.trans hb'.2⟩
          simp [if_neg hc, if_neg hc', hs, hd]
  · cases hfind : db.orders.find? (fun o => decide (o.id = oid)) with
    | none =>
      rw [admin_update_status_eq_of_find_none db oid ns hfind]
      exact hU
    | some r =>
      rw [admin_update_status_eq_of_find db oid ns r hfind]
      refine groupUniform_map _ _ ?_ ?_ hU
      · intro o
        by_cases hc : o.total_price = r.total_price ∧ o.timestamp = r.timestamp <;>
          simp [hc]
      · intro a b htp hts hs hd
        by_cases hc : a.total_price = r.total_price ∧ a.timestamp = r.timestamp
        · have hc' : b.total_price = r.total_price ∧ b.timestamp = r.timestamp :=
            ⟨htp ▸ hc.1, hts ▸ hc.2⟩
          simp [if_pos hc, if_pos hc', hd]
        · have hc' : ¬(b.total_price = r.total_price ∧ b.timestamp = r.timestamp) := by
            intro hb'
            exact hc ⟨htp.trans hb'.1, hts.trans hb'.2⟩
          simp [if_neg hc, if_neg hc', hs, hd]
  · cases hfind : db.orders.find? (fun o =>
        decide (o.id = oid ∧ o.delivery_partner = some du)) with
    | none =>
      rw [delivery_update_status_eq_of_find_none db oid ns du hfind]
      exact hU
    | some r =>
      rw [delivery_update_status_eq_of_find db oid ns du r hfind]
      refine groupUniform_map _ _ ?_ ?_ hU
      · intro o
        by_cases hc : o.total_price = r.total_price ∧ o.timestamp = r.timestamp ∧
            o.delivery_partner = some du <;>
          simp [hc]
      · intro a b htp hts hs hd
        by_cases hc : a.total_price = r.total_price ∧ a.timestamp = r.timestamp ∧
            a.delivery_partner = some du
        · have hc' : b.total_price = r.total_price ∧ b.timestamp = r.timestamp ∧
              b.delivery_partner = some du :=
            ⟨htp ▸ hc.1, hts ▸ hc.2.1, hd ▸ hc.2.2⟩
          rw [if_pos hc, if_pos hc']
          exact ⟨rfl, hd⟩
        · have hc' : ¬(b.total_price = r.total_price ∧ b.timestamp = r.timestamp ∧
              b.delivery_partner = some du) := by
            intro hb'
            exact hc ⟨htp.trans hb'.1, hts.trans hb'.2.1, hd.trans hb'.2.2⟩
          rw [if_neg hc, if_neg hc']
          exact ⟨hs, hd⟩

/-- Witness for C1 on the concrete colliding ledger, which satisfies the
group invariant. -/
theorem group_invariant_preserved_witness :
    groupUniform collideDB.orders ∧
      groupUniform (admin_assign collideDB 1 "bob").1.orders ∧
      groupUniform (admin_update_status collideDB 1 "done").1.orders ∧
      groupUniform (delivery_update_status collideDB 1 "done" "dave").1.orders := by
  have h := group_invariant_preserved collideDB 1 "bob" "done" "dave" (by decide)
  exact ⟨by decide, h.1, h.2.1, h.2.2⟩

/-- Counterexample to C3: in a ledger where user 1 and user 2 own
transactions with colliding (total_price, timestamp) keys, an admin assign
referencing user 1's row also mutates user 2's LineItem. -/
theorem admin_assign_cross_user_cex :
    wRow2.user_id ≠ wRow1.user_id ∧
      wRow2 ∈ collideDB.orders ∧
      collideDB.orders.find? (fun o => decide (o.id = 1)) = some wRow1 ∧
      ((admin_assign collideDB 1 "bob").1.orders.filter
          (fun o => decide (o.user_id = 2))).map
        (fun o => (o.status, o.delivery_partner))
        = [("preparing", some "bob")] := by
  decide

/-- C3 amended: the mutation routes update exactly the rows matching the
referenced row's key — (total_price, timestamp) for the admin routes,
additionally delivery_partner = actor for the delivery route — with no user
scoping, so a colliding transaction of a different user is mutated too. -/
theorem update_scope_is_key_only (db : DB) (oid : Nat) (p ns du : String) :
    (∀ r, db.orders.find? (fun o => decide (o.id = oid)) = some r →
        List.Forall₂ (fun o o' =>
          if o.total_price = r.total_price ∧ o.timestamp = r.timestamp then
            o' = { o with delivery_partner := some p, status := "preparing" }
          else o' = o)
          db.orders (admin_assign db oid p).1.orders) ∧
      (∀ r, db.orders.find? (fun o => decide (o.id = oid)) = some r →
        List.Forall₂ (fun o o' =>
          if o.total_price = r.total_price ∧ o.timestamp = r.timestamp then
            o' = { o with status := ns }
          else o' = o)
          db.orders (admin_update_status db oid ns).1.orders) ∧
      (∀ r, db.orders.find? (fun o =>
          decide (o.id = oid ∧ o.delivery_partner = some du)) = some r →
        List.Forall₂ (fun o o' =>
          if o.total_price = r.total_price ∧ o.timestamp = r.timestamp ∧
              o.delivery_partner = some du then
            o' = { o with status := ns }
          else o' = o)
          db.orders (delivery_update_status db oid ns du).1.orders) := by
  refine ⟨?_, ?_, ?_⟩
  · intro r h
    rw [admin_assign_eq_of_find db oid p r h]
    rw [List.forall₂_map_right_iff, List.forall₂_same]
    intro x _hx
    by_cases hc : x.total_price = r.total_price ∧ x.timestamp = r.timestamp <;>
      simp [hc]
  · intro r h
    rw [admin_update_status_eq_of_find db oid ns r h]
    rw [List.forall₂_map_right_iff, List.forall₂_same]
    intro x _hx
    by_cases hc : x.total_price = r.total_price ∧ x.timestamp = r.timestamp <;>
      simp [hc]
  · intro r h
    rw [delivery_update_status_eq_of_find db oid ns du r h]
    rw [List.forall₂_map_right_iff, List.forall₂_same]
    intro x _hx
    by_cases hc : x.total_price = r.total_price ∧ x.timestamp = r.timestamp ∧
        x.delivery_partner = some du <;>
      simp [hc]

/-- Witness for the amended C3 on the concrete colliding ledger. -/
theorem update_scope_is_key_only_witness :
    collideDB.orders.find? (fun o => decide (o.id = 1)) = some wRow1 ∧
      List.Forall₂ (fun o o' =>
        if o.total_price = wRow1.total_price ∧ o.timestamp = wRow1.timestamp then
          o' = { o with delivery_partner := some "bob", status := "preparing" }
        else o' = o)
        collideDB.orders (admin_assign collideDB 1 "bob").1.orders :=
  ⟨by decide, (update_scope_is_key_only collideDB 1 "bob" "x" "y").1 wRow1 (by decide)⟩

/-- A guest request: no session keys at all. -/
def guestSession : Session :=
  { user_id := none, username := none, role := none }

/-- An admin session. -/
def adminSession : Session :=
  { user_id := some 10, username := some "admin", role := some .admin }

/-- A database with one dish, for the menu route. -/
def menuDB : DB :=
  { dishes := [{ id := 1, name := "pizza", description := "cheesy",
                 price := 10, image := "pizza.png" }],
    cart := [], orders := [], nextOrderId := 1 }

/-- Counterexample to C9: an unauthenticated guest — not an authenticated
customer — is served the dish catalog instead of being denied. -/
theorem menu_guest_allowed_cex :
    guestSession.user_id = none ∧ guestSession.role = none ∧
      menu menuDB guestSession = MenuResult.dishes menuDB.dishes ∧
      menu menuDB guestSession ≠ MenuResult.denied := by
  decide

/-- C9 amended: the dish listing is denied exactly to staff sessions (admin
or delivery role); customer sessions and unauthenticated guests are served
the catalog. -/
theorem menu_denied_iff_staff (db : DB) (s : Session) :
    menu db s = MenuResult.denied ↔ is_staff s = true := by
  unfold menu
  by_cases h : is_staff s <;> simp [h]

/-- Witness for the amended C9: an admin session is denied. -/
theorem menu_denied_iff_staff_witness :
    is_staff adminSession = true ∧ menu menuDB adminSession = MenuResult.denied :=
  ⟨by decide, (menu_denied_iff_staff menuDB adminSession).mpr (by decide)⟩

/-- A key is among the distinct keys of a ledger exactly when some row
carries it. -/
lemma mem_distinctKeys (rows : List LineItem) (k : SummaryKey) :
    k ∈ distinctKeys rows ↔ ∃ o ∈ rows, summaryKey o = k := by
  induction rows with
  | nil => simp [distinctKeys]
  | cons o rest ih =>
    by_cases h : summaryKey o ∈ distinctKeys rest
    · rw [distinctKeys, if_pos h, ih]
      constructor
      · rintro ⟨o', ho', hk'⟩
        exact ⟨o', List.mem_cons_of_mem _ ho', hk'⟩
      · rintro ⟨o', ho', hk'⟩
        rcases List.mem_cons.mp ho' with heq | ho''
        · subst heq
          exact ih.mp (hk' ▸ h)
        · exact ⟨o', ho'', hk'⟩
    · rw [distinctKeys, if_neg h]
      constructor
      · intro hk
        rcases List.mem_cons.mp hk with heq | hk'
        · exact ⟨o, List.mem_cons_self o rest, heq.symm⟩
        · obtain ⟨o', ho', hko⟩ := ih.mp hk'
          exact ⟨o', List.mem_cons_of_mem _ ho', hko⟩
      · rintro ⟨o', ho', hk'⟩
        rcases List.mem_cons.mp ho' with heq | ho''
        · subst heq
          exact List.mem_cons.mpr (Or.inl hk'.symm)
        · exact List.mem_cons_of_mem _ (ih.mpr ⟨o', ho'', hk'⟩)

/-- The distinct keys of a ledger contain no duplicates. -/
lemma nodup_distinctKeys (rows : List LineItem) : (distinctKeys rows).Nodup := by
  induction rows with
  | nil => simp [distinctKeys]
  | cons o rest ih =>
    by_cases h : summaryKey o ∈ distinctKeys rest
    · rw [distinctKeys, if_pos h]
      exact ih
    · rw [distinctKeys, if_neg h]
      exact List.nodup_cons.mpr ⟨h, ih⟩

/-- The keys of the summary rows are exactly the distinct keys of the ledger,
in order. -/
lemma summaries_map_snd (rows : List LineItem) :
    (listTransactionSummaries rows).map Prod.snd = distinctKeys rows := by
  unfold listTransactionSummaries
  have step : ∀ (l : List SummaryKey), (∀ k ∈ l, ∃ o ∈ rows, summaryKey o = k) →
      (l.filterMap (fun k => (rows.find? (fun o => decide (summaryKey o = k))).map
        (fun o => (o.id, k)))).map Prod.snd = l := by
    intro l
    induction l with
    | nil =>
      intro _
      simp
    | cons k rest ih =>
      intro hl
      obtain ⟨o, ho, hk⟩ := hl k (List.mem_cons_self k rest)
      have hsome : (rows.find? (fun o => decide (summaryKey o = k))).isSome := by
        rw [List.find?_isSome]
        exact ⟨o, ho, by simp [hk]⟩
      obtain ⟨o', ho'⟩ := Option.isSome_iff_exists.mp hsome
      rw [List.filterMap_cons, ho']
      simp [ih (fun k' hk' => hl k' (List.mem_cons_of_mem _ hk'))]
  exact step (distinctKeys rows) (fun k hk => (mem_distinctKeys rows k).mp hk)

/-- A summary row's id and key come from an actual member row of the ledger. -/
lemma mem_summaries_elim (rows : List LineItem) (i : Nat) (k : SummaryKey)
    (h : (i, k) ∈ listTransactionSummaries rows) :
    ∃ o ∈ rows, o.id = i ∧ summaryKey o = k := by
  unfold listTransactionSummaries at h
  rw [List.mem_filterMap] at h
  obtain ⟨k', _hk', hmap⟩ := h
  rcases hfind : rows.find? (fun o => decide (summaryKey o = k')) with _ | o
  · rw [hfind] at hmap
    simp at hmap
  · rw [hfind] at hmap
    have hp : summaryKey o = k' := by simpa using List.find?_some hfind
    simp only [Option.map_some'] at hmap
    have hpair : (o.id, k') = (i, k) := Option.some.inj hmap
    have hid : o.id = i := congrArg Prod.fst hpair
    have hkk : k' = k := congrArg Prod.snd hpair
    exact ⟨o, List.mem_of_find?_eq_some hfind, hid, hkk ▸ hp⟩

/-- C8: the transaction summary listing has exactly one row per distinct
(total_price, timestamp, delivery_partner, status) combination present in
the (scope-filtered) ledger rows it is given, and each summary row carries
the id of a representative member row.  The `/profile` route applies this to
the caller's rows and `/admin` to the whole ledger. -/
theorem summaries_one_per_key (rows : List LineItem) :
    ((listTransactionSummaries rows).map Prod.snd).Nodup ∧
      (∀ k, (∃ i, (i, k) ∈ listTransactionSummaries rows) ↔
        ∃ o ∈ rows, summaryKey o = k) ∧
      (∀ i k, (i, k) ∈ listTransactionSummaries rows →
        ∃ o ∈ rows, o.id = i ∧ summaryKey o = k) := by
  refine ⟨?_, ?_, fun i k h => mem_summaries_elim rows i k h⟩
  · rw [summaries_map_snd]
    exact nodup_distinctKeys rows
  · intro k
    constructor
    · rintro ⟨i, hi⟩
      obtain ⟨o, ho, _hid, hk⟩ := mem_summaries_elim rows i k hi
      exact ⟨o, ho, hk⟩
    · rintro ⟨o, ho, hk⟩
      have hkd : k ∈ distinctKeys rows := (mem_distinctKeys rows k).mpr ⟨o, ho, hk⟩
      have hsome : (rows.find? (fun o => decide (summaryKey o = k))).isSome := by
        rw [List.find?_isSome]
        exact ⟨o, ho, by simp [hk]⟩
      obtain ⟨o', ho'⟩ := Option.isSome_iff_exists.mp hsome
      refine ⟨o'.id, ?_⟩
      unfold listTransactionSummaries
      rw [List.mem_filterMap]
      exact ⟨k, hkd, by simp [ho']⟩

/-- Witness for C8 on the concrete colliding ledger: its two rows share one
key, and the single summary row carries the representative id 1. -/
theorem summaries_one_per_key_witness :
    (1, summaryKey wRow1) ∈ listTransactionSummaries collideDB.orders ∧
      ∃ o ∈ collideDB.orders, o.id = 1 ∧ summaryKey o = summaryKey wRow1 :=
  ⟨by decide,
    (summaries_one_per_key collideDB.orders).2.2 1 (summaryKey wRow1) (by decide)⟩

/-- A cart entry resolves iff its dish is in the catalog. -/
lemma resolveEntry_isSome (db : DB) (e : CartEntry) :
    (resolveEntry db e).isSome = (findDish db e.dish_id).isSome := by
  rcases h : findDish db e.dish_id with _ | d <;> simp [resolveEntry, h]

/-- When every element maps to `some`, `filterMap` is pointwise related to the
input list. -/
lemma forall₂_filterMap_of_isSome {α β : Type} (f : α → Option β) :
    ∀ (l : List α), (∀ a ∈ l, (f a).isSome) →
      List.Forall₂ (fun a b => f a = some b) l (l.filterMap f) := by
  intro l
  induction l with
  | nil =>
    intro _
    exact List.Forall₂.nil
  | cons a rest ih =>
    intro h
    obtain ⟨b, hb⟩ := Option.isSome_iff_exists.mp (h a (List.mem_cons_self a rest))
    rw [List.filterMap_cons, hb]
    exact List.Forall₂.cons hb (ih (fun a' ha' => h a' (List.mem_cons_of_mem _ ha')))

/-- The rows built by the insertion loop are pointwise described by their
dish items. -/
lemma forall₂_mkRows (uid : Nat) (now : String) (grand : Rat) :
    ∀ (nid : Nat) (items : List DishItem),
      List.Forall₂ (fun (it : DishItem) (r : LineItem) =>
        r.user_id = uid ∧ r.dish_id = it.dish_id ∧ r.dish_name = it.dish_name ∧
        r.quantity = it.quantity ∧ r.total = it.total ∧ r.status = "placed" ∧
        r.delivery_partner = none ∧ r.total_price = grand ∧ r.timestamp = now)
        items (mkRows uid now grand nid items) := by
  intro nid items
  induction items generalizing nid with
  | nil => exact List.Forall₂.nil
  | cons it rest ih =>
    simp only [mkRows]
    exact List.Forall₂.cons ⟨rfl, rfl, rfl, rfl, rfl, rfl, rfl, rfl, rfl⟩ (ih (nid + 1))

/-- Composition of two pointwise relations along a middle list. -/
lemma forall₂_trans_comp {α β γ : Type} {R : α → β → Prop} {S : β → γ → Prop} :
    ∀ {l₁ : List α} {l₂ : List β} {l₃ : List γ},
      List.Forall₂ R l₁ l₂ → List.Forall₂ S l₂ l₃ →
        List.Forall₂ (fun a c => ∃ b, R a b ∧ S b c) l₁ l₃ := by
  intro l₁ l₂ l₃ h1
  induction h1 generalizing l₃ with
  | nil =>
    intro h2
    cases h2
    exact List.Forall₂.nil
  | cons hab _htail ih =>
    intro h2
    cases h2 with
    | cons hbc h2tail => exact List.Forall₂.cons ⟨_, hab, hbc⟩ (ih h2tail)

/-- The line totals of the inserted rows are the totals of the dish items. -/
lemma mkRows_map_total (uid : Nat) (now : String) (grand : Rat) :
    ∀ (nid : Nat) (items : List DishItem),
      (mkRows uid now grand nid items).map LineItem.total = items.map DishItem.total := by
  intro nid items
  induction items generalizing nid with
  | nil => rfl
  | cons it rest ih =>
    simp only [mkRows, List.map_cons]
    rw [ih]

/-- One inserted row per dish item. -/
lemma mkRows_length (uid : Nat) (now : String) (grand : Rat) :
    ∀ (nid : Nat) (items : List DishItem),
      (mkRows uid now grand nid items).length = items.length := by
  intro nid items
  induction items generalizing nid with
  | nil => rfl
  | cons it rest ih =>
    simp only [mkRows, List.length_cons]
    rw [ih]

/-- `filterMap` keeps as many elements as map to `some`. -/
lemma length_filterMap_eq_count {α β : Type} (f : α → Option β) :
    ∀ (l : List α),
      (l.filterMap f).length = (l.filter (fun a => (f a).isSome)).length := by
  intro l
  induction l with
  | nil => rfl
  | cons a rest ih =>
    rw [List.filterMap_cons]
    cases hf : f a with
    | none => simp [List.filter_cons, hf, ih]
    | some b => simp [List.filter_cons, hf, ih]

/-- Re-filtering the cleared cart for the ordering user finds nothing. -/
lemma userCart_after_clear (cart : List CartEntry) (uid : Nat) :
    (cart.filter (fun e => decide (e.user_id ≠ uid))).filter
      (fun e => decide (e.user_id = uid)) = [] := by
  rw [List.filter_filter]
  refine List.filter_eq_nil_iff.mpr ?_
  intro e _he
  by_cases h : e.user_id = uid <;> simp [h]

/-- Unfolding of `place_order_auto` when the user's cart is non-empty. -/
lemma place_order_auto_eq_of_ne (db : DB) (uid : Nat) (now : String)
    (hne : userCart db uid ≠ []) :
    place_order_auto db uid now =
      ({ db with
          orders := db.orders ++ mkRows uid now
            ((((userCart db uid).filterMap (resolveEntry db)).map DishItem.total).sum)
            db.nextOrderId ((userCart db uid).filterMap (resolveEntry db)),
          cart := db.cart.filter (fun e => decide (e.user_id ≠ uid)),
          nextOrderId := db.nextOrderId + (mkRows uid now
            ((((userCart db uid).filterMap (resolveEntry db)).map DishItem.total).sum)
            db.nextOrderId ((userCart db uid).filterMap (resolveEntry db))).length },
       .placed (if (userCart db uid).filterMap (resolveEntry db) = [] then none
         else some db.nextOrderId)) := by
  unfold place_order_auto
  rw [if_neg hne]

/-- A database whose only cart entry references a dish id absent from the
catalog. -/
def danglingCartDB : DB :=
  { dishes := [],
    cart := [{ id := 1, user_id := 1, dish_id := 99, quantity := 2 }],
    orders := [], nextOrderId := 1 }

/-- A database with one catalog dish and one matching cart entry. -/
def goodCartDB : DB :=
  { dishes := [{ id := 1, name := "pizza", description := "cheesy",
                 price := 10, image := "p.png" }],
    cart := [{ id := 1, user_id := 1, dish_id := 1, quantity := 2 }],
    orders := [], nextOrderId := 1 }

/-- Counterexample to C2: a non-empty cart whose single entry references a
missing dish produces zero inserted LineItems — not one LineItem per cart
entry — yet checkout still runs to completion. -/
theorem checkout_missing_dish_cex :
    (userCart danglingCartDB 1).length = 1 ∧
      ((place_order_auto danglingCartDB 1 "2026-01-03 12:00:00").1.orders).length = 0 := by
  decide

/-- C2 amended: for every non-empty cart all of whose entries reference
catalog dishes, checkout appends exactly one LineItem per cart entry with
line total price * quantity, the snapshot dish name, status "placed", no
delivery partner, the shared timestamp, and transaction total equal to the
sum of all inserted line totals; the returned reference is the id of the
first inserted row, and the user's cart is emptied. -/
theorem checkout_creates_transaction (db : DB) (uid : Nat) (now : String)
    (hne : userCart db uid ≠ [])
    (hall : ∀ e ∈ userCart db uid, (findDish db e.dish_id).isSome) :
    ∃ newRows : List LineItem,
      (place_order_auto db uid now).1.orders = db.orders ++ newRows ∧
      List.Forall₂ (fun (e : CartEntry) (r : LineItem) =>
        r.user_id = uid ∧ r.dish_id = e.dish_id ∧ r.quantity = e.quantity ∧
        (∃ d, findDish db e.dish_id = some d ∧ r.dish_name = d.name ∧
          r.total = d.price * (e.quantity : Rat)) ∧
        r.status = "placed" ∧ r.delivery_partner = none ∧ r.timestamp = now ∧
        r.total_price = (newRows.map LineItem.total).sum)
        (userCart db uid) newRows ∧
      (place_order_auto db uid now).2 = CheckoutResult.placed (some db.nextOrderId) ∧
      (∃ r0 rest, newRows = r0 :: rest ∧ r0.id = db.nextOrderId) ∧
      userCart (place_order_auto db uid now).1 uid = [] := by
  have heq := place_order_auto_eq_of_ne db uid now hne
  have hci : List.Forall₂ (fun e b => resolveEntry db e = some b)
      (userCart db uid) ((userCart db uid).filterMap (resolveEntry db)) := by
    refine forall₂_filterMap_of_isSome _ _ ?_
    intro e he
    rw [resolveEntry_isSome]
    exact hall e he
  have hlen := hci.length_eq
  have hdne : (userCart db uid).filterMap (resolveEntry db) ≠ [] := by
    intro h0
    apply hne
    have hl0 : (userCart db uid).length = 0 := by
      rw [hlen, h0]
      rfl
    exact List.length_eq_zero.mp hl0
  have hrows := forall₂_mkRows uid now
    ((((userCart db uid).filterMap (resolveEntry db)).map DishItem.total).sum)
    db.nextOrderId ((userCart db uid).filterMap (resolveEntry db))
  have hcomp := forall₂_trans_comp hci hrows
  refine ⟨mkRows uid now
      ((((userCart db uid).filterMap (resolveEntry db)).map DishItem.total).sum)
      db.nextOrderId ((userCart db uid).filterMap (resolveEntry db)),
    by rw [heq], ?_, ?_, ?_, ?_⟩
  · refine hcomp.imp ?_
    intro e r hr
    obtain ⟨it, hres, hprops⟩ := hr
    have hfd : ∃ d, findDish db e.dish_id = some d ∧
        it = { dish_id := e.dish_id, dish_name := d.name, quantity := e.quantity,
               total := d.price * (e.quantity : Rat) } := by
      rcases hfd' : findDish db e.dish_id with _ | d
      · rw [resolveEntry, hfd'] at hres
        simp at hres
      · rw [resolveEntry, hfd'] at hres
        exact ⟨d, rfl, (Option.some.inj hres).symm⟩
    obtain ⟨d, hd, hit⟩ := hfd
    obtain ⟨h1, h2, h3, h4, h5, h6, h7, h8, h9⟩ := hprops
    subst hit
    refine ⟨h1, h2, h4, ⟨d, hd, h3, h5⟩, h6, h7, h9, ?_⟩
    rw [mkRows_map_total]
    exact h8
  · rw [heq]
    simp only [if_neg hdne]
  · rcases hd : (userCart db uid).filterMap (resolveEntry db) with _ | ⟨it, rest⟩
    · exact absurd hd hdne
    · simp only [mkRows]
      exact ⟨_, _, rfl, rfl⟩
  · rw [heq]
    unfold userCart
    exact userCart_after_clear db.cart uid

/-- Witness for the amended C2 on a concrete one-dish, one-entry database. -/
theorem checkout_creates_transaction_witness :
    (userCart goodCartDB 1 ≠ [] ∧
        ∀ e ∈ userCart goodCartDB 1, (findDish goodCartDB e.dish_id).isSome) ∧
      ∃ newRows : List LineItem,
        (place_order_auto goodCartDB 1 "2026-01-03 12:00:00").1.orders
            = goodCartDB.orders ++ newRows ∧
        List.Forall₂ (fun (e : CartEntry) (r : LineItem) =>
          r.user_id = 1 ∧ r.dish_id = e.dish_id ∧ r.quantity = e.quantity ∧
          (∃ d, findDish goodCartDB e.dish_id = some d ∧ r.dish_name = d.name ∧
            r.total = d.price * (e.quantity : Rat)) ∧
          r.status = "placed" ∧ r.delivery_partner = none ∧
          r.timestamp = "2026-01-03 12:00:00" ∧
          r.total_price = (newRows.map LineItem.total).sum)
          (userCart goodCartDB 1) newRows ∧
        (place_order_auto goodCartDB 1 "2026-01-03 12:00:00").2
            = CheckoutResult.placed (some goodCartDB.nextOrderId) ∧
        (∃ r0 rest, newRows = r0 :: rest ∧ r0.id = goodCartDB.nextOrderId) ∧
        userCart (place_order_auto goodCartDB 1 "2026-01-03 12:00:00").1 1 = [] :=
  ⟨⟨by decide, by decide⟩,
    checkout_creates_transaction goodCartDB 1 "2026-01-03 12:00:00"
      (by decide) (by decide)⟩

/-- The elements of a list that map to `some` are pointwise related to the
`filterMap` of the list. -/
lemma forall₂_filter_isSome_filterMap {α β : Type} (f : α → Option β) :
    ∀ (l : List α),
      List.Forall₂ (fun a b => f a = some b)
        (l.filter (fun a => (f a).isSome)) (l.filterMap f) := by
  intro l
  induction l with
  | nil => exact List.Forall₂.nil
  | cons a rest ih =>
    cases hf : f a with
    | none =>
      rw [List.filter_cons, List.filterMap_cons, hf]
      exact ih
    | some b =>
      rw [List.filter_cons, List.filterMap_cons, hf]
      exact List.Forall₂.cons hf ih

/-- C10: for a non-empty cart, checkout inserts exactly one LineItem per cart
entry whose dish still exists, and the inserted rows are described entry by
entry: each carries line total price * quantity of its (resolvable) entry and
a transaction total equal to the sum of exactly those line totals, so a
missing-dish entry contributes no LineItem and nothing to the grand total;
when every entry's dish is missing, checkout inserts nothing, reports no
error (redirecting with reference `none`), and still empties the cart. -/
theorem checkout_skips_missing_dishes (db : DB) (uid : Nat) (now : String)
    (hne : userCart db uid ≠ []) :
    ((place_order_auto db uid now).1.orders).length
        = db.orders.length
          + ((userCart db uid).filter (fun e => (findDish db e.dish_id).isSome)).length ∧
      (∃ newRows : List LineItem,
        (place_order_auto db uid now).1.orders = db.orders ++ newRows ∧
        List.Forall₂ (fun (e : CartEntry) (r : LineItem) =>
          r.user_id = uid ∧ r.dish_id = e.dish_id ∧ r.quantity = e.quantity ∧
          (∃ d, findDish db e.dish_id = some d ∧ r.dish_name = d.name ∧
            r.total = d.price * (e.quantity : Rat)) ∧
          r.status = "placed" ∧ r.delivery_partner = none ∧ r.timestamp = now ∧
          r.total_price = (newRows.map LineItem.total).sum)
          ((userCart db uid).filter (fun e => (findDish db e.dish_id).isSome))
          newRows) ∧
      ((∀ e ∈ userCart db uid, findDish db e.dish_id = none) →
        (place_order_auto db uid now).1.orders = db.orders ∧
        (place_order_auto db uid now).2 = CheckoutResult.placed none ∧
        userCart (place_order_auto db uid now).1 uid = []) := by
  have heq := place_order_auto_eq_of_ne db uid now hne
  refine ⟨?_, ?_, ?_⟩
  · rw [heq]
    simp only [List.length_append]
    congr 1
    rw [mkRows_length, length_filterMap_eq_count]
    simp only [resolveEntry_isSome]
  · have hfi := forall₂_filter_isSome_filterMap (resolveEntry db) (userCart db uid)
    simp only [resolveEntry_isSome] at hfi
    have hrows := forall₂_mkRows uid now
      ((((userCart db uid).filterMap (resolveEntry db)).map DishItem.total).sum)
      db.nextOrderId ((userCart db uid).filterMap (resolveEntry db))
    have hcomp := forall₂_trans_comp hfi hrows
    refine ⟨mkRows uid now
        ((((userCart db uid).filterMap (resolveEntry db)).map DishItem.total).sum)
        db.nextOrderId ((userCart db uid).filterMap (resolveEntry db)),
      by rw [heq], ?_⟩
    refine hcomp.imp ?_
    intro e r hr
    obtain ⟨it, hres, hprops⟩ := hr
    have hfd : ∃ d, findDish db e.dish_id = some d ∧
        it = { dish_id := e.dish_id, dish_name := d.name, quantity := e.quantity,
               total := d.price * (e.quantity : Rat) } := by
      rcases hfd' : findDish db e.dish_id with _ | d
      · rw [resolveEntry, hfd'] at hres
        simp at hres
      · rw [resolveEntry, hfd'] at hres
        exact ⟨d, rfl, (Option.some.inj hres).symm⟩
    obtain ⟨d, hd, hit⟩ := hfd
    obtain ⟨h1, h2, h3, h4, h5, h6, h7, h8, h9⟩ := hprops
    subst hit
    refine ⟨h1, h2, h4, ⟨d, hd, h3, h5⟩, h6, h7, h9, ?_⟩
    rw [mkRows_map_total]
    exact h8
  · intro hmiss
    have hd0 : (userCart db uid).filterMap (resolveEntry db) = [] := by
      rw [List.filterMap_eq_nil_iff]
      intro e he
      simp [resolveEntry, hmiss e he]
    refine ⟨?_, ?_, ?_⟩
    · rw [heq]
      simp [hd0, mkRows]
    · rw [heq]
      simp [hd0]
    · rw [heq]
      unfold userCart
      exact userCart_after_clear db.cart uid

/-- Witness for C10 on the concrete dangling-cart database. -/
theorem checkout_skips_missing_dishes_witness :
    (userCart danglingCartDB 1 ≠ [] ∧
        ∀ e ∈ userCart danglingCartDB 1, findDish danglingCartDB e.dish_id = none) ∧
      ((place_order_auto danglingCartDB 1 "2026-01-04 08:00:00").1.orders
          = danglingCartDB.orders ∧
        (place_order_auto danglingCartDB 1 "2026-01-04 08:00:00").2
          = CheckoutResult.placed none ∧
        userCart (place_order_auto danglingCartDB 1 "2026-01-04 08:00:00").1 1 = []) :=
  ⟨⟨by decide, by decide⟩,
    (checkout_skips_missing_dishes danglingCartDB 1 "2026-01-04 08:00:00"
      (by decide)).2.2 (by decide)⟩
